import Mathlib

/-!
# node-iptv-proxy: the HTTP gateway (`iptv-proxy.js`)

A shallow embedding of the route handlers of `iptv-proxy.js`.  Every handler is
a function from the request, the configuration, the registry snapshot and the
outcomes its asynchronous collaborators report, to the list of effects it
performs in program order (calls into `streams`, `changlue`, the response
object and the encoder).
-/

namespace IptvProxy

/-! ## JavaScript values used by the handlers -/

/-- The values a property of `config.transcode` or a request parameter can
hold. -/
inductive JSVal where
  /-- The value `undefined`. -/
  | undefined
  /-- A string. -/
  | str (s : String)
  /-- A function that, called on an ffmpeg command, returns a command (a
  pipeline builder), identified by its source text, which is what string
  conversion of a function yields. -/
  | fn (src : String)
  /-- Any other truthy value that is no string: an object, or a built-in
  function that returns no command; `text` is its string conversion. -/
  | other (text : String)
  deriving DecidableEq, Repr

namespace JSVal

/-- JavaScript truthiness (`if (v)`, `!v`, `v || w`). -/
def truthy : JSVal → Bool
  | undefined => false
  | str s => s != ""
  | fn _ => true
  | other _ => true

/-- String conversion, as performed by `"..." + v` and by property access
`obj[v]`. -/
def toStr : JSVal → String
  | undefined => "undefined"
  | str s => s
  | fn src => src
  | other text => text

/-- The operator `a || b`. -/
def or (a b : JSVal) : JSVal := if a.truthy then a else b

end JSVal

/-- An error-first callback's `err` argument: `none` is `null`/`undefined`,
`some s` the error string. -/
abbrev Err := Option String

/-- Truthiness of an `err` argument (`if (err)`). -/
def Err.truthy : Err → Bool
  | none => false
  | some s => s != ""

/-- A header set (`data.stream.headers`). -/
abbrev Headers := List (String × String)

/-- The `data` argument of `get_chan` / `try_chan` callbacks; only
`data.stream.headers` is read by the gateway. -/
structure ChanData where
  headers : Headers
  deriving DecidableEq, Repr

/-! ## `GET /playlist` -/

/-- The string `req.headers['host']` contributes to a concatenation. -/
def hostStr : Option String → String
  | none => "undefined"
  | some h => h

/-- The array index a property name denotes, if any: the name is the decimal
numeral, without leading zeros, of an integer below `2^32 - 1`. -/
def arrayIndex? (name : String) : Option Nat :=
  match name.data with
  | [] => none
  | c :: cs =>
    if (c :: cs).all Char.isDigit && (c != '0' || cs.isEmpty) then
      let n := (c :: cs).foldl (fun n d => 10 * n + (d.toNat - 48)) 0
      if n < 4294967295 then some n else none
    else none

/-- Ascending order of array indices. -/
def indexLE (a b : String) : Prop := (arrayIndex? a).getD 0 ≤ (arrayIndex? b).getD 0

instance indexLE.decidable : DecidableRel indexLE :=
  fun a b => inferInstanceAs (Decidable ((arrayIndex? a).getD 0 ≤ (arrayIndex? b).getD 0))

/-- The array `Object.keys(obj)` returns; `names` are the own property names
of `obj` in the order they were created (the order the configuration file
writes them).  Names that are array indices come first, in ascending numeric
order, then all other names in creation order. -/
def objectKeys (names : List String) : List String :=
  (names.filter (fun n => (arrayIndex? n).isSome)).insertionSort indexLE ++
    names.filter (fun n => (arrayIndex? n).isNone)

/-- The body built by `app.get('/playlist')`: `channels` are the property
names of `config.channels` as configured, `host` is `req.headers['host']`.
The accumulator `playlist` is threaded through the `map` callback over
`Object.keys(config.channels)`. -/
def playlist (channels : List String) (host : Option String) : String :=
  (objectKeys channels).foldl
    (fun playlist val =>
      let playlist := playlist ++ ("#EXTINF:-1 tvg-name=\"" ++ val ++ "\"," ++ val ++ "\r\n")
      playlist ++ ("http://" ++ hostStr host ++ "/stream/" ++ val ++ "\r\n"))
    ("" ++ "#EXTM3U\r\n")

/-- The playlist document as the specification words it: the line `#EXTM3U`,
then two lines per channel name, in order. -/
def playlistLines (names : List String) (h : String) : List String :=
  "#EXTM3U" ::
    names.flatMap (fun n =>
      ["#EXTINF:-1 tvg-name=\"" ++ n ++ "\"," ++ n, "http://" ++ h ++ "/stream/" ++ n])

/-- Serialise lines, each one terminated by CRLF. -/
def crlfJoin (lines : List String) : String :=
  String.join (lines.map (fun l => l ++ "\r\n"))

/-! ## Registry snapshot (`streams.current`) -/

/-- One attached client (an element of `e.clients`): the fields the gateway
reads, and `handle`, the identity of the underlying stream object. -/
structure Client where
  uuid : String
  client_type : String
  client_added : Int
  handle : Nat
  deriving DecidableEq, Repr

/-- One element of `streams.current`. -/
structure Channel where
  id : String
  clients : List Client
  deriving DecidableEq, Repr

/-- The result of `httpu.get_stream_stats(el)`, kept as an uninterpreted
document. -/
structure StreamStats where
  json : String
  deriving DecidableEq, Repr

/-! ## The regular expression `trans-([^-]*)-(.*)` -/

/-- The character classes the pattern uses. -/
inductive Cls where
  /-- The class `[^c]`: any character but `c`. -/
  | notChar (c : Char)
  /-- The class `.`: any character but a line terminator. -/
  | dot
  deriving DecidableEq, Repr

/-- Line terminators of ECMAScript: LF, CR, U+2028, U+2029. -/
def isLineTerminator (c : Char) : Bool :=
  c == '\n' || c == '\r' || c == Char.ofNat 0x2028 || c == Char.ofNat 0x2029

/-- Does a character belong to a class. -/
def Cls.test : Cls → Char → Bool
  | Cls.notChar c, x => x != c
  | Cls.dot, x => !isLineTerminator x

/-- The pieces of a pattern, in sequence: a literal character, the start and
end of a capturing group, and a greedy `*` over a character class. -/
inductive Tok where
  | chr (c : Char)
  | openGroup
  | closeGroup
  | star (cls : Cls)
  deriving DecidableEq, Repr

/-- Greedy `cls*` followed by the continuation `k`: consume a character of the
class and go on; when that fails, backtrack and let `k` run from here. -/
def matchStar {R : Type} (cls : Cls) (k : List Char → Option R) : List Char → Option R
  | [] => k []
  | c :: cs =>
    if cls.test c then
      match matchStar cls k cs with
      | some r => some r
      | none => k (c :: cs)
    else k (c :: cs)

/-- Backtracking matcher anchored at the start of `inp`.  `opens` holds the
input as it stood at each group still open, `caps` the text of the groups
closed so far; the result is the captures and the unconsumed input. -/
def matchToks : List Tok → List (List Char) → List (List Char) → List Char →
    Option (List (List Char) × List Char)
  | [], _, caps, inp => some (caps, inp)
  | Tok.chr c :: ts, opens, caps, inp =>
    match inp with
    | [] => none
    | x :: xs => if x = c then matchToks ts opens caps xs else none
  | Tok.openGroup :: ts, opens, caps, inp => matchToks ts (inp :: opens) caps inp
  | Tok.closeGroup :: ts, opens, caps, inp =>
    match opens with
    | [] => none
    | st :: opens => matchToks ts opens (caps ++ [st.take (st.length - inp.length)]) inp
  | Tok.star cls :: ts, opens, caps, inp => matchStar cls (matchToks ts opens caps) inp

/-- A match attempt at one start position: the matched text, then the groups. -/
def matchAt (toks : List Tok) (inp : List Char) : Option (List (List Char)) :=
  match matchToks toks [] [] inp with
  | none => none
  | some (caps, rest) => some (inp.take (inp.length - rest.length) :: caps)

/-- Leftmost match: try every start position from the left, the end of the
input included. -/
def search (toks : List Tok) : List Char → Option (List (List Char))
  | [] => matchAt toks []
  | c :: cs =>
    match matchAt toks (c :: cs) with
    | some r => some r
    | none => search toks cs

/-- `RegExp.prototype.exec` of a non-global pattern: `none` is `null`, else
the array `[match, group 1, group 2, ...]`.  Characters stand for code points;
both classes of the pattern treat the two halves of a surrogate pair alike, so
matching by code point and by UTF-16 unit give the same texts. -/
def exec (toks : List Tok) (s : String) : Option (List String) :=
  (search toks s.data).map (fun r => r.map String.mk)

/-- The pattern of `new RegExp("trans-([^-]*)-(.*)")`. -/
def transcodePattern : List Tok :=
  [Tok.chr 't', Tok.chr 'r', Tok.chr 'a', Tok.chr 'n', Tok.chr 's', Tok.chr '-',
   Tok.openGroup, Tok.star (Cls.notChar '-'), Tok.closeGroup,
   Tok.chr '-',
   Tok.openGroup, Tok.star Cls.dot, Tok.closeGroup]

/-! ## `get_client_stats` -/

/-- One row of `get_client_stats()`; an absent field is `none`. -/
structure Info where
  uuid : String
  chan : Option String
  type : String
  profile : Option String
  http : StreamStats
  uptime : Int
  deriving DecidableEq, Repr

/-- `Math.round(ms / 1000)` on an integer number of milliseconds: nearest
integer, halves upwards. -/
def roundSeconds (ms : Int) : Int := (ms + 500) / 1000

/-- The `info` object built for one `http-sink` client `el` of channel `e`. -/
def client_info (get_stream_stats : Client → StreamStats) (now : Int) (e : Channel)
    (el : Client) : Info :=
  let transcode_info := exec transcodePattern e.id
  match transcode_info with
  | some m =>
    { uuid := el.uuid, chan := m[2]?, type := "transcoded", profile := m[1]?,
      http := get_stream_stats el, uptime := roundSeconds (now - el.client_added) }
  | none =>
    { uuid := el.uuid, chan := some e.id, type := "direct", profile := none,
      http := get_stream_stats el, uptime := roundSeconds (now - el.client_added) }

/-- The inner function `gen_client_stats(e)`: walks `e.clients` and pushes a
row onto `stats` for every client whose `client_type` is `http-sink`. -/
def gen_client_stats (get_stream_stats : Client → StreamStats) (now : Int) (e : Channel)
    (stats : List Info) : List Info :=
  e.clients.foldl
    (fun stats el =>
      if el.client_type != "http-sink" then stats
      else stats ++ [client_info get_stream_stats now e el])
    stats

/-- The function `get_client_stats()`: `current` is `streams.current`, `now`
is the reading of `Date.now()` during the call, `get_stream_stats` is
`httpu.get_stream_stats`. -/
def get_client_stats (get_stream_stats : Client → StreamStats) (now : Int)
    (current : List Channel) : List Info :=
  current.foldl (fun stats e => gen_client_stats get_stream_stats now e stats) []

/-! ## Effects of the route handlers -/

/-- The stream objects a handler holds: the HTTP response `res`, and the two
`PassThrough` streams the transcode route creates. -/
inductive Handle where
  | res
  | fakeClient
  | transcodedChan
  deriving DecidableEq, Repr

/-- What the completion hook handed to `streams.addChan` does when it runs. -/
inductive HookOp where
  /-- The call `h.end()`. -/
  | endStream (h : Handle)
  /-- The call `streams.killClient(chan, h)`. -/
  | killClient (chan : String) (h : Handle)
  deriving DecidableEq, Repr

/-- The observable calls of a handler, recorded in program order. -/
inductive Effect where
  /-- The call `res.header(name, value)`. -/
  | header (name value : String)
  /-- The call `res.send(body)`. -/
  | sendBody (body : String)
  /-- The call `res.send(status)`. -/
  | sendStatus (status : Nat)
  /-- The call `res.send(status, body)`. -/
  | send (status : Nat) (body : String)
  /-- The call `res.set(headers)`. -/
  | set (headers : Headers)
  /-- The call `res.writeHead(status, headers)`. -/
  | writeHead (status : Nat) (headers : Headers)
  /-- The call `res.end()`. -/
  | resEnd
  /-- The call `console.log(msg)`. -/
  | log (msg : String)
  /-- The call `changlue.try_chan(key, cb)`. -/
  | try_chan (key : String)
  /-- The call `changlue.get_chan(key, cb)`. -/
  | get_chan (key : String)
  /-- The call `streams.addClient(key, h, role)`. -/
  | addClient (key : String) (h : Handle) (role : String)
  /-- The call `streams.addChan(key, source, headers, hook)`. -/
  | addChan (key : String) (source : Handle) (headers : Headers) (hook : List HookOp)
  /-- The call `streams.killChan(key)`. -/
  | killChan (key : String)
  /-- The call `streams.killClient(key, el)` on a registry client. -/
  | killClient (key : String) (el : Client)
  /-- The encoder pipeline built by the function `builder` from an ffmpeg
  command reading `source`, with `.fromFormat(inFmt).toFormat(outFmt)` and
  `.writeToStream(out)`. -/
  | encode (builder : String) (source : Handle) (inFmt outFmt : String) (out : Handle)
  /-- A `TypeError` thrown while the encoder is being started: the entry
  `callee` of `config.transcode` is not a function, or what it returns is not
  an ffmpeg command. -/
  | typeError (callee : JSVal)
  deriving DecidableEq, Repr

/-- The HTTP status a trace gives the response: that of the first call that
fixes it (`res.send`, `res.writeHead`); `res.send(body)` leaves the default
200. -/
def responseStatus : List Effect → Option Nat
  | [] => none
  | Effect.sendStatus n :: _ => some n
  | Effect.send n _ :: _ => some n
  | Effect.writeHead n _ :: _ => some n
  | Effect.sendBody _ :: _ => some 200
  | _ :: es => responseStatus es

/-! ## `GET /playlist`, `GET /stream/:chan` -/

/-- The handler `app.get('/playlist')`. -/
def playlist_handler (channels : List String) (host : Option String) : List Effect :=
  [Effect.header "Content-Type" "audio/x-mpegurl", Effect.sendBody (playlist channels host)]

/-- The handler `app.get('/stream/:chan')`; `err` and `data` are what
`changlue.get_chan` passes to the callback. -/
def stream_handler (chan : String) (err : Err) (data : ChanData) : List Effect :=
  Effect.get_chan chan ::
    (if err = some "NotFound" then
      [Effect.send 404 "not found"]
    else if err.truthy then
      [Effect.send 503 "Failed to start stream"]
    else
      [Effect.set data.headers, Effect.addClient chan Handle.res "http-sink"])

/-! ## `GET /transcode.:profile?/:chan` -/

/-- The object `config.transcode`, an object literal of the configuration
file: its own properties, in order. -/
abbrev TranscodeConfig := List (String × JSVal)

/-- The properties every ordinary object inherits from `Object.prototype`.
Called on an object, `constructor` (the function `Object`) returns that object,
so on an ffmpeg command it behaves as a pipeline builder; none of the others
returns a command, and `__proto__` is the prototype object itself. -/
def objectPrototype : TranscodeConfig :=
  [("constructor", JSVal.fn "function Object() \x7b [native code] \x7d"),
   ("toString", JSVal.other "function toString() \x7b [native code] \x7d"),
   ("toLocaleString", JSVal.other "function toLocaleString() \x7b [native code] \x7d"),
   ("valueOf", JSVal.other "function valueOf() \x7b [native code] \x7d"),
   ("hasOwnProperty", JSVal.other "function hasOwnProperty() \x7b [native code] \x7d"),
   ("isPrototypeOf", JSVal.other "function isPrototypeOf() \x7b [native code] \x7d"),
   ("propertyIsEnumerable",
     JSVal.other "function propertyIsEnumerable() \x7b [native code] \x7d"),
   ("__defineGetter__", JSVal.other "function __defineGetter__() \x7b [native code] \x7d"),
   ("__defineSetter__", JSVal.other "function __defineSetter__() \x7b [native code] \x7d"),
   ("__lookupGetter__", JSVal.other "function __lookupGetter__() \x7b [native code] \x7d"),
   ("__lookupSetter__", JSVal.other "function __lookupSetter__() \x7b [native code] \x7d"),
   ("__proto__", JSVal.other "[object Object]")]

/-- Property access `config.transcode[key]`: an own property when there is one
under that name, else the property inherited from `Object.prototype`, else
`undefined`. -/
def TranscodeConfig.get (cfg : TranscodeConfig) (key : JSVal) : JSVal :=
  match cfg.lookup key.toStr with
  | some v => v
  | none => (objectPrototype.lookup key.toStr).getD JSVal.undefined

/-- The comparison `v == s` against a string. -/
def JSVal.looseEqStr : JSVal → String → Bool
  | JSVal.undefined, _ => false
  | JSVal.str t, s => t == s
  | JSVal.fn src, s => src == s
  | JSVal.other text, s => text == s

/-- The value of `req.params.profile`. -/
def paramVal : Option String → JSVal
  | none => JSVal.undefined
  | some s => JSVal.str s

/-- The local `profile` of the transcode route:
`req.params.profile || config.transcode["default"]`. -/
def effectiveProfile (cfg : TranscodeConfig) (reqProfile : Option String) : JSVal :=
  (paramVal reqProfile).or (cfg.get (JSVal.str "default"))

/-- The test `profile == "disable" || !config.transcode[profile]`. -/
def invalidProfile (cfg : TranscodeConfig) (profile : JSVal) : Bool :=
  profile.looseEqStr "disable" || !(cfg.get profile).truthy

/-- The registry key `"trans-" + profile + "-" + chan`. -/
def transKey (profile : JSVal) (chan : String) : String :=
  "trans-" ++ profile.toStr ++ "-" ++ chan

/-- What the collaborators of one transcode request report: the callback
arguments of `try_chan` and of `get_chan`, and the message of the encoder's
`error` event when it fires. -/
structure TranscodeOutcome where
  tryErr : Err
  tryData : ChanData
  getErr : Err
  getData : ChanData
  ffmpegError : Option String
  deriving DecidableEq, Repr

/-- The body of the `get_chan` callback of the transcode route once `err` is
falsy: register the internal client, create the derived channel, attach the
caller, start the encoder. -/
def transcode_start (cfg : TranscodeConfig) (profile : JSVal) (chan : String)
    (o : TranscodeOutcome) : List Effect :=
  let sourceStream := o.getData
  [Effect.writeHead 200 sourceStream.headers,
   Effect.addClient chan Handle.fakeClient ("transcode-" ++ profile.toStr),
   Effect.addChan (transKey profile chan) Handle.transcodedChan sourceStream.headers
     [HookOp.endStream Handle.fakeClient, HookOp.killClient chan Handle.fakeClient],
   Effect.addClient (transKey profile chan) Handle.res "http-sink"] ++
  (match cfg.get profile with
   | JSVal.fn builder =>
     Effect.encode builder Handle.fakeClient "mpegts" "mpegts" Handle.transcodedChan ::
       (match o.ffmpegError with
        | none => []
        | some message =>
          [Effect.log ("FFMPEG_ERRROR: " ++ message), Effect.resEnd,
           Effect.killChan (transKey profile chan)])
   | v => [Effect.typeError v])

/-- The handler `app.get('/transcode.:profile?/:chan')`; `transcode` is
`config.transcode` (`none` when it is absent). -/
def transcode_handler (transcode : Option TranscodeConfig) (reqProfile : Option String)
    (chan : String) (o : TranscodeOutcome) : List Effect :=
  match transcode with
  | none => [Effect.send 404 "Transcoding not enabled"]
  | some cfg =>
    let profile := effectiveProfile cfg reqProfile
    if invalidProfile cfg profile then
      [Effect.send 404 "Invalid profile"]
    else
      Effect.log ("TRANSCODE: " ++ chan ++ " " ++ profile.toStr) ::
      Effect.try_chan (transKey profile chan) ::
      (if !o.tryErr.truthy then
        [Effect.set o.tryData.headers,
         Effect.addClient (transKey profile chan) Handle.res "http-sink"]
      else
        Effect.get_chan chan ::
        (match o.getErr with
         | some err =>
           if err != "" then
             [Effect.send 503 ("Failed to start stream (" ++ err ++ ")")]
           else transcode_start cfg profile chan o
         | none => transcode_start cfg profile chan o))

/-! ## Admin routes -/

/-- The handler `app.delete('/admin/chan/:chan')`; `hasChan` is
`streams.hasChan`. -/
def delete_chan_handler (hasChan : String → Bool) (chan : String) : List Effect :=
  (if !hasChan chan then [Effect.sendStatus 404] else []) ++
  [Effect.killChan chan, Effect.sendStatus 200]

/-- The search loop of `app.delete('/admin/client/:uuid')`: the last client
whose `uuid` is the requested one, with the id of its channel. -/
def find_client (current : List Channel) (uuid : String) : Option (String × Client) :=
  current.foldl
    (fun found e =>
      e.clients.foldl
        (fun found el => if el.uuid != uuid then found else some (e.id, el))
        found)
    none

/-- The handler `app.delete('/admin/client/:uuid')`. -/
def delete_client_handler (current : List Channel) (uuid : String) : List Effect :=
  match find_client current uuid with
  | none => [Effect.sendStatus 404]
  | some (chan, handle) => [Effect.killClient chan handle, Effect.sendStatus 200]

/-- The `streams.addClient` calls of a trace: key, stream, role. -/
def attachments : List Effect → List (String × Handle × String)
  | [] => []
  | Effect.addClient key h role :: es => (key, h, role) :: attachments es
  | _ :: es => attachments es

/-- Calls that start something new for a transcode request: acquiring the
source channel, creating a channel, registering the internal feed, starting
the encoder. -/
def newWork : Effect → Bool
  | Effect.get_chan _ => true
  | Effect.addChan _ _ _ _ => true
  | Effect.encode _ _ _ _ _ => true
  | Effect.addClient _ Handle.fakeClient _ => true
  | _ => false

/-- The rows channel `e` contributes: one per `http-sink` client, in order. -/
def sinkRows (get_stream_stats : Client → StreamStats) (now : Int) (e : Channel) : List Info :=
  (e.clients.filter (fun el => el.client_type = "http-sink")).map
    (client_info get_stream_stats now e)

/-- Does the text contain `trans-` followed, anywhere later, by another `-`. -/
def transShaped : List Char → Bool
  | [] => false
  | c :: cs =>
    ("trans-".data.isPrefixOf (c :: cs) && ((c :: cs).drop 6).contains '-') || transShaped cs

/-! ## Playlist -/

theorem playlist_foldl (host : String) (keys : List String) (acc : String) :
    keys.foldl
      (fun playlist val =>
        let playlist := playlist ++ ("#EXTINF:-1 tvg-name=\"" ++ val ++ "\"," ++ val ++ "\r\n")
        playlist ++ ("http://" ++ host ++ "/stream/" ++ val ++ "\r\n"))
      acc
    = acc ++ crlfJoin (keys.flatMap (fun n =>
        ["#EXTINF:-1 tvg-name=\"" ++ n ++ "\"," ++ n, "http://" ++ host ++ "/stream/" ++ n])) := by
  induction keys generalizing acc with
  | nil => simp [crlfJoin, String.join]
  | cons k ks ih =>
    rw [List.foldl_cons, ih]
    apply String.ext
    simp [crlfJoin, String.data_join, List.flatMap_cons]

instance indexLE.isTotal : IsTotal String indexLE :=
  ⟨fun a b => Nat.le_total ((arrayIndex? a).getD 0) ((arrayIndex? b).getD 0)⟩

instance indexLE.isTrans : IsTrans String indexLE :=
  ⟨fun _ _ _ hab hbc => Nat.le_trans hab hbc⟩

theorem objectKeys_perm (names : List String) : (objectKeys names).Perm names := by
  unfold objectKeys
  have h1 := List.perm_insertionSort indexLE (names.filter (fun n => (arrayIndex? n).isSome))
  have h2 : (names.filter (fun n => (arrayIndex? n).isNone)) =
      names.filter (fun n => !(arrayIndex? n).isSome) := by
    congr 1
    funext n
    cases arrayIndex? n <;> rfl
  rw [h2]
  exact (h1.append_right _).trans (List.filter_append_perm _ names)

theorem objectKeys_of_no_index (names : List String)
    (h : ∀ n ∈ names, arrayIndex? n = none) : objectKeys names = names := by
  unfold objectKeys
  have h1 : names.filter (fun n => (arrayIndex? n).isSome) = [] := by
    rw [List.filter_eq_nil_iff]
    intro n hn
    simp [h n hn]
  have h2 : names.filter (fun n => (arrayIndex? n).isNone) = names := by
    rw [List.filter_eq_self]
    intro n hn
    simp [h n hn]
  rw [h1, h2]
  rfl

set_option maxRecDepth 8000 in
/-- C5, as stated, fails when a configured channel name is an integer:
`Object.keys` lists such names first, in ascending numeric order.  With the
channels configured as `itv`, `10`, `bbc1`, `2` the document is the one of
`2`, `10`, `itv`, `bbc1`, not the one in configured order. -/
theorem playlist_integer_names_first :
    playlist ["itv", "10", "bbc1", "2"] (some "example.com:8080") ≠
      crlfJoin (playlistLines ["itv", "10", "bbc1", "2"] "example.com:8080") ∧
    playlist ["itv", "10", "bbc1", "2"] (some "example.com:8080") =
      crlfJoin (playlistLines ["2", "10", "itv", "bbc1"] "example.com:8080") := by
  decide

/-- C5, amended: the body sent by `GET /playlist` is the line `#EXTM3U`
followed, for each configured channel name exactly once, by its `#EXTINF` line
and its stream URL on the request host, every line terminated by CRLF and
nothing else.  The names come in the order of `Object.keys`: those that are
array indices first, in ascending numeric order, then all others in configured
order; when no name is an array index that is the configured order.  On
channels `bbc1`, `itv` and host `example.com:8080` it is the five-line document
of the specification. -/
theorem playlist_document_in_key_order (channels : List String) (h : String) :
    playlist_handler channels (some h) =
        [Effect.header "Content-Type" "audio/x-mpegurl",
         Effect.sendBody (crlfJoin (playlistLines (objectKeys channels) h))] ∧
    (objectKeys channels).Perm channels ∧
    (∃ idx : List String,
        objectKeys channels = idx ++ channels.filter (fun n => (arrayIndex? n).isNone) ∧
        (∀ n ∈ idx, (arrayIndex? n).isSome = true) ∧
        idx.Sorted (fun a b => (arrayIndex? a).getD 0 ≤ (arrayIndex? b).getD 0)) ∧
    ((∀ n ∈ channels, arrayIndex? n = none) → objectKeys channels = channels) ∧
    playlist ["bbc1", "itv"] (some "example.com:8080") =
      crlfJoin ["#EXTM3U", "#EXTINF:-1 tvg-name=\"bbc1\",bbc1",
        "http://example.com:8080/stream/bbc1", "#EXTINF:-1 tvg-name=\"itv\",itv",
        "http://example.com:8080/stream/itv"] := by
  refine ⟨?_, objectKeys_perm channels, ?_, objectKeys_of_no_index channels, by decide⟩
  · have key : playlist channels (some h) = crlfJoin (playlistLines (objectKeys channels) h) := by
      unfold playlist hostStr
      rw [playlist_foldl]
      apply String.ext
      simp [crlfJoin, playlistLines, String.data_join]
    simp [playlist_handler, key]
  · refine ⟨(channels.filter (fun n => (arrayIndex? n).isSome)).insertionSort indexLE,
      rfl, ?_, List.sorted_insertionSort indexLE _⟩
    intro n hn
    have hmem := (List.perm_insertionSort indexLE _).subset hn
    exact (List.mem_filter.mp hmem).2

/-! ## Client statistics -/

theorem gen_client_stats_eq (gss : Client → StreamStats) (now : Int) (e : Channel)
    (stats : List Info) :
    gen_client_stats gss now e stats = stats ++ sinkRows gss now e := by
  unfold gen_client_stats sinkRows
  generalize e.clients = cl
  induction cl generalizing stats with
  | nil => simp
  | cons el els ih =>
    rw [List.foldl_cons, ih]
    by_cases h : el.client_type = "http-sink" <;> simp [h, List.filter_cons]

theorem get_client_stats_foldl (gss : Client → StreamStats) (now : Int)
    (current : List Channel) (stats : List Info) :
    current.foldl (fun stats e => gen_client_stats gss now e stats) stats
      = stats ++ current.flatMap (sinkRows gss now) := by
  induction current generalizing stats with
  | nil => simp
  | cons e es ih => rw [List.foldl_cons, ih, gen_client_stats_eq]; simp [List.flatMap_cons]

theorem get_client_stats_eq (gss : Client → StreamStats) (now : Int)
    (current : List Channel) :
    get_client_stats gss now current = current.flatMap (sinkRows gss now) := by
  unfold get_client_stats
  rw [get_client_stats_foldl]; simp

theorem client_info_uuid (gss : Client → StreamStats) (now : Int) (e : Channel) (el : Client) :
    (client_info gss now e el).uuid = el.uuid := by
  unfold client_info
  cases exec transcodePattern e.id <;> rfl

theorem internal_role_ne_sink (profile : JSVal) : "transcode-" ++ profile.toStr ≠ "http-sink" := by
  intro h
  have hd := congrArg String.data h
  have h1 : ("transcode-" : String).data = 't' :: ("ranscode-" : String).data := rfl
  have h2 : ("http-sink" : String).data = 'h' :: ("ttp-sink" : String).data := rfl
  rw [String.data_append, h1, h2, List.cons_append] at hd
  injection hd with hc _
  revert hc
  decide

theorem mem_get_client_stats (gss : Client → StreamStats) (now : Int)
    (current : List Channel) (e : Channel) (el : Client) (he : e ∈ current)
    (hel : el ∈ e.clients) (hs : el.client_type = "http-sink") :
    client_info gss now e el ∈ get_client_stats gss now current := by
  rw [get_client_stats_eq, List.mem_flatMap]
  refine ⟨e, he, ?_⟩
  unfold sinkRows
  exact List.mem_map_of_mem _ (List.mem_filter.mpr ⟨hel, by simpa using hs⟩)

/-- C6: `get_client_stats` returns exactly one row per attached `http-sink`
client and none for any other role: its rows, and so their uuids, are those of
the `http-sink` clients taken channel by channel, client by client.  A channel
with one `http-sink` client and one internal feed of role
`"transcode-" + profile` yields exactly the row of the former, whichever is
attached first, and that role is never `http-sink`. -/
theorem get_client_stats_sinks_only (gss : Client → StreamStats) (now : Int)
    (current : List Channel) :
    get_client_stats gss now current =
        current.flatMap (fun e =>
          (e.clients.filter (fun el => el.client_type = "http-sink")).map
            (client_info gss now e)) ∧
    (get_client_stats gss now current).map Info.uuid =
        (current.flatMap (fun e =>
          e.clients.filter (fun el => el.client_type = "http-sink"))).map Client.uuid ∧
    (∀ (key : String) (profile : JSVal) (sink feed : Client),
        get_client_stats gss now
            [⟨key, [{ sink with client_type := "http-sink" },
                    { feed with client_type := "transcode-" ++ profile.toStr }]⟩] =
          [client_info gss now
            ⟨key, [{ sink with client_type := "http-sink" },
                   { feed with client_type := "transcode-" ++ profile.toStr }]⟩
            { sink with client_type := "http-sink" }] ∧
        get_client_stats gss now
            [⟨key, [{ feed with client_type := "transcode-" ++ profile.toStr },
                    { sink with client_type := "http-sink" }]⟩] =
          [client_info gss now
            ⟨key, [{ feed with client_type := "transcode-" ++ profile.toStr },
                   { sink with client_type := "http-sink" }]⟩
            { sink with client_type := "http-sink" }]) ∧
    (∀ profile : JSVal, "transcode-" ++ profile.toStr ≠ "http-sink") := by
  refine ⟨get_client_stats_eq gss now current, ?_, ?_, internal_role_ne_sink⟩
  · rw [get_client_stats_eq]
    induction current with
    | nil => rfl
    | cons e es ih =>
      simp only [List.flatMap_cons, List.map_append, ih]
      congr 1
      simp [sinkRows, List.map_map, Function.comp_def, client_info_uuid]
  · intro key profile sink feed
    have hne := internal_role_ne_sink profile
    constructor <;>
      simp [get_client_stats_eq, sinkRows, List.flatMap_cons, List.filter_cons, hne]

/-! ## The matcher on the pattern `trans-([^-]*)-(.*)` -/

theorem matchStar_greedy {R : Type} (cls : Cls) (k : List Char → Option R) (xs rest : List Char)
    (r : R) (hxs : ∀ x ∈ xs, cls.test x = true) (hk : matchStar cls k rest = some r) :
    matchStar cls k (xs ++ rest) = some r := by
  induction xs with
  | nil => simpa using hk
  | cons x xs ih =>
    have hx : cls.test x = true := hxs x (List.mem_cons_self _ _)
    have ih1 := ih (fun y hy => hxs y (List.mem_cons_of_mem _ hy))
    simp [matchStar, hx, ih1]

theorem matchStar_stop {R : Type} (cls : Cls) (k : List Char → Option R) (x : Char)
    (rest : List Char) (hx : cls.test x = false) :
    matchStar cls k (x :: rest) = k (x :: rest) := by
  simp [matchStar, hx]

theorem matchStar_none {R : Type} (cls : Cls) (k : List Char → Option R) (inp : List Char)
    (hk : ∀ t, t <:+ inp → k t = none) : matchStar cls k inp = none := by
  induction inp with
  | nil => simpa [matchStar] using hk [] (List.suffix_refl _)
  | cons x xs ih =>
    have h1 := ih (fun t ht => hk t (List.IsSuffix.trans ht (List.suffix_cons _ _)))
    have h2 := hk (x :: xs) (List.suffix_refl _)
    by_cases hx : cls.test x = true <;> simp [matchStar, hx, h1, h2]

theorem matchToks_chr_cons (c : Char) (ts : List Tok) (opens caps : List (List Char))
    (xs : List Char) :
    matchToks (Tok.chr c :: ts) opens caps (c :: xs) = matchToks ts opens caps xs := by
  simp [matchToks]

theorem matchToks_open (ts : List Tok) (opens caps : List (List Char)) (inp : List Char) :
    matchToks (Tok.openGroup :: ts) opens caps inp = matchToks ts (inp :: opens) caps inp := rfl

theorem matchToks_close (ts : List Tok) (st : List Char) (opens caps : List (List Char))
    (inp : List Char) :
    matchToks (Tok.closeGroup :: ts) (st :: opens) caps inp =
      matchToks ts opens (caps ++ [st.take (st.length - inp.length)]) inp := rfl

theorem matchToks_star (cls : Cls) (ts : List Tok) (opens caps : List (List Char))
    (inp : List Char) :
    matchToks (Tok.star cls :: ts) opens caps inp =
      matchStar cls (matchToks ts opens caps) inp := rfl

theorem matchToks_done (opens caps : List (List Char)) (inp : List Char) :
    matchToks [] opens caps inp = some (caps, inp) := rfl

theorem matchAt_transKey (p c : List Char) (hp : '-' ∉ p)
    (hc : ∀ x ∈ c, isLineTerminator x = false) :
    matchAt transcodePattern ("trans-".data ++ p ++ "-".data ++ c) =
      some ["trans-".data ++ p ++ "-".data ++ c, p, c] := by
  have h1 : ("trans-" : String).data = ['t', 'r', 'a', 'n', 's', '-'] := rfl
  have h2 : ("-" : String).data = ['-'] := rfl
  rw [h1, h2]
  have hstar2 : ∀ opens caps, matchStar Cls.dot (matchToks [Tok.closeGroup] (c :: opens) caps) c =
      some (caps ++ [c], []) := by
    intro opens caps
    have h := matchStar_greedy Cls.dot (matchToks [Tok.closeGroup] (c :: opens) caps) c []
      (caps ++ [c], []) (by intro x hx; simp [Cls.test, hc x hx])
      (by simp [matchStar, matchToks_close, matchToks_done])
    simpa using h
  have hstar1 : matchStar (Cls.notChar '-')
      (matchToks [Tok.closeGroup, Tok.chr '-', Tok.openGroup, Tok.star Cls.dot, Tok.closeGroup]
        [p ++ '-' :: c] []) (p ++ '-' :: c) = some ([p, c], []) := by
    apply matchStar_greedy
    · intro x hx
      simp only [Cls.test, bne_iff_ne, ne_eq]
      rintro rfl
      exact hp hx
    · rw [matchStar_stop _ _ _ _ (by decide)]
      simp only [matchToks_close, matchToks_chr_cons, matchToks_open, matchToks_star, hstar2]
      simp
  unfold matchAt transcodePattern
  simp only [List.cons_append, List.nil_append, List.append_assoc, matchToks_chr_cons,
    matchToks_open, matchToks_star, hstar1]
  simp

theorem exec_transKey (p c : String) (hp : '-' ∉ p.data)
    (hc : ∀ x ∈ c.data, isLineTerminator x = false) :
    exec transcodePattern (transKey (JSVal.str p) c) =
      some [transKey (JSVal.str p) c, p, c] := by
  have hd : (transKey (JSVal.str p) c).data = "trans-".data ++ p.data ++ "-".data ++ c.data := by
    simp [transKey, JSVal.toStr, String.data_append]
  have hm := matchAt_transKey p.data c.data hp hc
  have hs : search transcodePattern (transKey (JSVal.str p) c).data =
      some [(transKey (JSVal.str p) c).data, p.data, c.data] := by
    rw [hd]
    have hcons : "trans-".data ++ p.data ++ "-".data ++ c.data =
        't' :: ("rans-".data ++ p.data ++ "-".data ++ c.data) := rfl
    rw [hcons] at hm ⊢
    simp only [search, hm]
  simp [exec, hs]

theorem matchToks_lits (lits : List Char) (ts : List Tok) (opens caps : List (List Char))
    (inp : List Char) :
    matchToks (lits.map Tok.chr ++ ts) opens caps inp =
      if lits.isPrefixOf inp then matchToks ts opens caps (inp.drop lits.length) else none := by
  induction lits generalizing inp with
  | nil => simp [List.isPrefixOf]
  | cons l ls ih =>
    cases inp with
    | nil => simp [matchToks, List.isPrefixOf]
    | cons x xs =>
      by_cases hx : x = l
      · subst hx
        simp [matchToks, List.isPrefixOf, ih]
      · have hx2 : ¬ l = x := fun h => hx h.symm
        simp [matchToks, List.isPrefixOf, hx, hx2]

theorem matchAt_none (inp : List Char)
    (h : ("trans-".data.isPrefixOf inp && (inp.drop 6).contains '-') = false) :
    matchAt transcodePattern inp = none := by
  have hpat : transcodePattern = "trans-".data.map Tok.chr ++
      [Tok.openGroup, Tok.star (Cls.notChar '-'), Tok.closeGroup, Tok.chr '-',
       Tok.openGroup, Tok.star Cls.dot, Tok.closeGroup] := rfl
  have hlen : "trans-".data.length = 6 := rfl
  unfold matchAt
  rw [hpat, matchToks_lits, hlen]
  by_cases hpre : "trans-".data.isPrefixOf inp = true
  · rw [hpre] at h
    have hdash : '-' ∉ inp.drop 6 := by
      intro hmem
      have : (inp.drop 6).contains '-' = true := by simpa using hmem
      rw [this] at h
      exact absurd h (by decide)
    have hstar : matchStar (Cls.notChar '-')
        (matchToks [Tok.closeGroup, Tok.chr '-', Tok.openGroup, Tok.star Cls.dot,
          Tok.closeGroup] [inp.drop 6] []) (inp.drop 6) = none := by
      apply matchStar_none
      intro t ht
      rw [matchToks_close]
      cases t with
      | nil => simp [matchToks]
      | cons x xs =>
        have hx : x ∈ inp.drop 6 := ht.subset (List.mem_cons_self _ _)
        have hne : ¬ x = '-' := fun hxe => hdash (hxe ▸ hx)
        simp [matchToks, hne]
    simp only [hpre, if_true, matchToks_open, matchToks_star, hstar]
  · simp [hpre]

theorem search_none (l : List Char) (h : transShaped l = false) :
    search transcodePattern l = none := by
  induction l with
  | nil => exact matchAt_none [] rfl
  | cons c cs ih =>
    simp only [transShaped, Bool.or_eq_false_iff] at h
    simp only [search, matchAt_none _ h.1, ih h.2]

theorem exec_none (key : String) (h : transShaped key.data = false) :
    exec transcodePattern key = none := by
  simp [exec, search_none _ h]

theorem transShaped_of_no_trans (l : List Char) (h : ¬ "trans-".data <:+: l) :
    transShaped l = false := by
  induction l with
  | nil => rfl
  | cons c cs ih =>
    have h1 : "trans-".data.isPrefixOf (c :: cs) = false := by
      cases hp : "trans-".data.isPrefixOf (c :: cs) with
      | false => rfl
      | true => exact absurd (List.isPrefixOf_iff_prefix.mp hp).isInfix h
    have h2 : ¬ "trans-".data <:+: cs := fun hi =>
      h (hi.trans (List.suffix_cons c cs).isInfix)
    simp [transShaped, h1, ih h2]

theorem matchStar_total {R : Type} (cls : Cls) (k : List Char → Option R) (inp : List Char)
    (hk : ∀ t, (k t).isSome = true) : (matchStar cls k inp).isSome = true := by
  induction inp with
  | nil => simpa [matchStar] using hk []
  | cons x xs ih =>
    by_cases hx : cls.test x = true
    · obtain ⟨r, hr⟩ := Option.isSome_iff_exists.mp ih
      simp [matchStar, hx, hr]
    · simpa [matchStar, hx] using hk (x :: xs)

theorem matchAt_isSome (inp : List Char)
    (h : ("trans-".data.isPrefixOf inp && (inp.drop 6).contains '-') = true) :
    (matchAt transcodePattern inp).isSome = true := by
  have hpat : transcodePattern = "trans-".data.map Tok.chr ++
      [Tok.openGroup, Tok.star (Cls.notChar '-'), Tok.closeGroup, Tok.chr '-',
       Tok.openGroup, Tok.star Cls.dot, Tok.closeGroup] := rfl
  have hlen : "trans-".data.length = 6 := rfl
  rw [Bool.and_eq_true] at h
  obtain ⟨hpre, hcont⟩ := h
  have hmem : '-' ∈ inp.drop 6 := by simpa using hcont
  generalize hrest : inp.drop 6 = rest at hmem
  obtain ⟨mid, post, hsplit, hmid⟩ := List.eq_append_cons_of_mem hmem
  subst hsplit
  have hdot : ∀ opens caps, (matchStar Cls.dot (matchToks [Tok.closeGroup] (post :: opens) caps)
      post).isSome = true := by
    intro opens caps
    apply matchStar_total
    intro t
    simp [matchToks_close, matchToks_done]
  obtain ⟨r, hr⟩ := Option.isSome_iff_exists.mp
    (hdot [] ([] ++ [(mid ++ '-' :: post).take
      ((mid ++ '-' :: post).length - ('-' :: post).length)]))
  have hstar : matchStar (Cls.notChar '-')
      (matchToks [Tok.closeGroup, Tok.chr '-', Tok.openGroup, Tok.star Cls.dot,
        Tok.closeGroup] [mid ++ '-' :: post] []) (mid ++ '-' :: post) = some r := by
    apply matchStar_greedy
    · intro x hx
      simp only [Cls.test, bne_iff_ne, ne_eq]
      rintro rfl
      exact hmid hx
    · rw [matchStar_stop _ _ _ _ (by decide)]
      simp only [matchToks_close, matchToks_chr_cons, matchToks_open, matchToks_star]
      exact hr
  unfold matchAt
  rw [hpat, matchToks_lits, hlen, hrest]
  simp only [hpre, if_true, matchToks_open, matchToks_star, hstar]
  rfl

theorem search_isSome (l : List Char) (h : transShaped l = true) :
    (search transcodePattern l).isSome = true := by
  induction l with
  | nil => exact absurd h (by decide)
  | cons c cs ih =>
    cases hm : matchAt transcodePattern (c :: cs) with
    | some r => simp [search, hm]
    | none =>
      have h1 : ("trans-".data.isPrefixOf (c :: cs) && ((c :: cs).drop 6).contains '-')
          = false := by
        cases hb : ("trans-".data.isPrefixOf (c :: cs) && ((c :: cs).drop 6).contains '-') with
        | false => rfl
        | true =>
          have := matchAt_isSome _ hb
          rw [hm] at this
          exact absurd this (by decide)
      have h2 : transShaped cs = true := by
        simp only [transShaped, h1, Bool.false_or] at h
        exact h
      simpa [search, hm] using ih h2

theorem exec_isSome_iff (key : String) :
    (exec transcodePattern key).isSome = transShaped key.data := by
  cases h : transShaped key.data with
  | false => simp [exec_none key h]
  | true => simpa [exec] using search_isSome _ h

/-! ## Labels of the rows -/

/-- C7, as stated, fails for a profile name that contains `-` and for a
channel name that contains a line terminator: the key built for profile
`hd-low` and channel `bbc1` is labelled profile `hd`, channel `low-bbc1`, and
the key built for profile `mp4` and channel `news\nlive` is labelled channel
`news`. -/
theorem transcoded_label_lossy :
    (¬ ∀ row ∈ get_client_stats (fun _ => ⟨""⟩) 0
          [⟨transKey (JSVal.str "hd-low") "bbc1", [⟨"u1", "http-sink", 0, 1⟩]⟩],
        row.type = "transcoded" ∧ row.profile = some "hd-low" ∧ row.chan = some "bbc1") ∧
    get_client_stats (fun _ => ⟨""⟩) 0
        [⟨transKey (JSVal.str "hd-low") "bbc1", [⟨"u1", "http-sink", 0, 1⟩]⟩] =
      [{ uuid := "u1", chan := some "low-bbc1", type := "transcoded", profile := some "hd",
         http := ⟨""⟩, uptime := 0 }] ∧
    get_client_stats (fun _ => ⟨""⟩) 0
        [⟨transKey (JSVal.str "mp4") "news\nlive", [⟨"u1", "http-sink", 0, 1⟩]⟩] =
      [{ uuid := "u1", chan := some "news", type := "transcoded", profile := some "mp4",
         http := ⟨""⟩, uptime := 0 }] := by
  decide

/-- C7, amended: for every profile name `p` without `-` and every channel name
`c` without a line terminator (names `c` containing `-` included), the row
`get_client_stats` reports for an `http-sink` client of the channel whose key
is `"trans-" + p + "-" + c` has type `transcoded`, profile `p` and chan `c`. -/
theorem transcoded_key_label (gss : Client → StreamStats) (now : Int)
    (current : List Channel) (e : Channel) (el : Client) (p c : String)
    (hp : '-' ∉ p.data) (hc : ∀ x ∈ c.data, isLineTerminator x = false)
    (hid : e.id = transKey (JSVal.str p) c) (he : e ∈ current) (hel : el ∈ e.clients)
    (hs : el.client_type = "http-sink") :
    client_info gss now e el ∈ get_client_stats gss now current ∧
    (client_info gss now e el).type = "transcoded" ∧
    (client_info gss now e el).profile = some p ∧
    (client_info gss now e el).chan = some c := by
  refine ⟨mem_get_client_stats gss now current e el he hel hs, ?_⟩
  have hx := exec_transKey p c hp hc
  rw [← hid] at hx
  simp [client_info, hx]

theorem transcoded_key_label_witness :
    (client_info (fun _ => ⟨""⟩) 0
        ⟨"trans-mp4-bbc-one", [⟨"u1", "http-sink", 0, 1⟩]⟩ ⟨"u1", "http-sink", 0, 1⟩).type
      = "transcoded" ∧
    (client_info (fun _ => ⟨""⟩) 0
        ⟨"trans-mp4-bbc-one", [⟨"u1", "http-sink", 0, 1⟩]⟩ ⟨"u1", "http-sink", 0, 1⟩).profile
      = some "mp4" ∧
    (client_info (fun _ => ⟨""⟩) 0
        ⟨"trans-mp4-bbc-one", [⟨"u1", "http-sink", 0, 1⟩]⟩ ⟨"u1", "http-sink", 0, 1⟩).chan
      = some "bbc-one" :=
  (transcoded_key_label (fun _ => ⟨""⟩) 0
    [⟨"trans-mp4-bbc-one", [⟨"u1", "http-sink", 0, 1⟩]⟩]
    ⟨"trans-mp4-bbc-one", [⟨"u1", "http-sink", 0, 1⟩]⟩ ⟨"u1", "http-sink", 0, 1⟩
    "mp4" "bbc-one" (by decide) (by decide) (by decide)
    (List.mem_singleton.mpr rfl) (List.mem_singleton.mpr rfl) rfl).2

/-- C8, as stated, fails for a plain key that does not begin with `trans-` but
contains it: the channel `sky-trans-europe-hd`, attached through
`GET /stream/sky-trans-europe-hd`, is reported as transcoded, profile `europe`,
chan `hd`. -/
theorem plain_label_unanchored :
    ¬ ("trans-".data <+: "sky-trans-europe-hd".data) ∧
    (¬ ∀ row ∈ get_client_stats (fun _ => ⟨""⟩) 0
          [⟨"sky-trans-europe-hd", [⟨"u1", "http-sink", 0, 1⟩]⟩],
        row.type = "direct" ∧ row.chan = some "sky-trans-europe-hd" ∧ row.profile = none) ∧
    get_client_stats (fun _ => ⟨""⟩) 0
        [⟨"sky-trans-europe-hd", [⟨"u1", "http-sink", 0, 1⟩]⟩] =
      [{ uuid := "u1", chan := some "hd", type := "transcoded", profile := some "europe",
         http := ⟨""⟩, uptime := 0 }] := by
  decide

/-- C8, amended: for every channel whose key contains no `trans-` that is
followed, anywhere later in the key, by another `-` (in particular every key
that does not contain `trans-`), the row `get_client_stats` reports for an
`http-sink` client of that channel has type `direct`, chan equal to the whole
key and no profile. -/
theorem plain_key_label (gss : Client → StreamStats) (now : Int)
    (current : List Channel) (e : Channel) (el : Client)
    (hkey : transShaped e.id.data = false) (he : e ∈ current) (hel : el ∈ e.clients)
    (hs : el.client_type = "http-sink") :
    client_info gss now e el ∈ get_client_stats gss now current ∧
    (client_info gss now e el).type = "direct" ∧
    (client_info gss now e el).chan = some e.id ∧
    (client_info gss now e el).profile = none := by
  refine ⟨mem_get_client_stats gss now current e el he hel hs, ?_⟩
  simp [client_info, exec_none e.id hkey]

theorem plain_key_label_witness :
    (client_info (fun _ => ⟨""⟩) 0
        ⟨"bbc1", [⟨"u1", "http-sink", 0, 1⟩]⟩ ⟨"u1", "http-sink", 0, 1⟩).type = "direct" ∧
    (client_info (fun _ => ⟨""⟩) 0
        ⟨"bbc1", [⟨"u1", "http-sink", 0, 1⟩]⟩ ⟨"u1", "http-sink", 0, 1⟩).chan = some "bbc1" ∧
    (client_info (fun _ => ⟨""⟩) 0
        ⟨"bbc1", [⟨"u1", "http-sink", 0, 1⟩]⟩ ⟨"u1", "http-sink", 0, 1⟩).profile = none :=
  (plain_key_label (fun _ => ⟨""⟩) 0
    [⟨"bbc1", [⟨"u1", "http-sink", 0, 1⟩]⟩]
    ⟨"bbc1", [⟨"u1", "http-sink", 0, 1⟩]⟩ ⟨"u1", "http-sink", 0, 1⟩
    (by decide) (List.mem_singleton.mpr rfl) (List.mem_singleton.mpr rfl) rfl).2

/-! ## Forced client removal -/

theorem find_client_inner (uuid : String) (id : String) (cl : List Client)
    (found : Option (String × Client)) :
    cl.foldl (fun found el => if el.uuid != uuid then found else some (id, el)) found =
      match (cl.filter (fun el => el.uuid = uuid)).getLast? with
      | some el => some (id, el)
      | none => found := by
  induction cl generalizing found with
  | nil => rfl
  | cons el els ih =>
    rw [List.foldl_cons, ih]
    by_cases h : el.uuid = uuid
    · simp only [h, bne_self_eq_false, Bool.false_eq_true, if_false, List.filter_cons,
        decide_True, if_true]
      cases hl : (els.filter (fun el => el.uuid = uuid)) with
      | nil => simp
      | cons x xs =>
        obtain ⟨y, hy⟩ : ∃ y, (x :: xs).getLast? = some y :=
          ⟨_, List.getLast?_eq_getLast _ (List.cons_ne_nil _ _)⟩
        simp [hy]
    · simp [h, List.filter_cons]

theorem find_client_outer (uuid : String) (current : List Channel)
    (found : Option (String × Client)) :
    ((∀ e ∈ current, ∀ el ∈ e.clients, el.uuid ≠ uuid) ∧
      current.foldl
        (fun found e =>
          e.clients.foldl
            (fun found el => if el.uuid != uuid then found else some (e.id, el)) found)
        found = found) ∨
    (∃ e ∈ current, ∃ el ∈ e.clients, el.uuid = uuid ∧
      current.foldl
        (fun found e =>
          e.clients.foldl
            (fun found el => if el.uuid != uuid then found else some (e.id, el)) found)
        found = some (e.id, el)) := by
  induction current generalizing found with
  | nil => left; simp
  | cons e es ih =>
    rw [List.foldl_cons, find_client_inner]
    cases hl : (e.clients.filter (fun el => el.uuid = uuid)).getLast? with
    | none =>
      have hnil : e.clients.filter (fun el => el.uuid = uuid) = [] :=
        List.getLast?_eq_none_iff.mp hl
      have hno : ∀ el ∈ e.clients, el.uuid ≠ uuid := by
        intro el hel heq
        have : el ∈ e.clients.filter (fun el => el.uuid = uuid) :=
          List.mem_filter.mpr ⟨hel, by simpa using heq⟩
        rw [hnil] at this
        exact List.not_mem_nil _ this
      rcases ih found with ⟨hes, hr⟩ | ⟨e', he', el, hel, hu, hr⟩
      · left
        refine ⟨?_, hr⟩
        intro x hx
        rcases List.mem_cons.mp hx with rfl | hx
        · exact hno
        · exact hes x hx
      · right
        exact ⟨e', List.mem_cons_of_mem _ he', el, hel, hu, hr⟩
    | some el0 =>
      have hmem : el0 ∈ e.clients.filter (fun el => el.uuid = uuid) :=
        List.mem_of_getLast?_eq_some hl
      have h0 := List.mem_filter.mp hmem
      right
      rcases ih (some (e.id, el0)) with ⟨_, hr⟩ | ⟨e', he', el, hel, hu, hr⟩
      · exact ⟨e, List.mem_cons_self _ _, el0, h0.1, by simpa using h0.2, hr⟩
      · exact ⟨e', List.mem_cons_of_mem _ he', el, hel, hu, hr⟩

/-- C10: `DELETE /admin/client/:uuid` either finds no attached client with the
requested uuid, answers 404 and calls nothing else, or calls `killClient`
exactly once, on a client with that uuid and with the id of a channel whose
client list holds it, and then answers 200. -/
theorem delete_client_found_or_404 (current : List Channel) (uuid : String) :
    ((∀ e ∈ current, ∀ el ∈ e.clients, el.uuid ≠ uuid) ∧
      delete_client_handler current uuid = [Effect.sendStatus 404]) ∨
    (∃ e ∈ current, ∃ el ∈ e.clients, el.uuid = uuid ∧
      delete_client_handler current uuid =
        [Effect.killClient e.id el, Effect.sendStatus 200]) := by
  unfold delete_client_handler find_client
  rcases find_client_outer uuid current none with ⟨hno, hr⟩ | ⟨e, he, el, hel, hu, hr⟩
  · left; rw [hr]; exact ⟨hno, rfl⟩
  · right; rw [hr]; exact ⟨e, he, el, hel, hu, rfl⟩

/-! ## Stream and transcode routes -/

/-- C1: the response of `GET /stream/:chan` is decided by what `get_chan(chan)`
reports.  Error `NotFound`: status 404, nobody attached.  Any other (truthy)
error: status 503, nobody attached.  No error: the channel's headers are set
on the response and the caller is attached once, to key `chan`, as
`http-sink`. -/
theorem stream_handler_outcomes (chan : String) (err : Err) (data : ChanData) :
    (err = some "NotFound" →
      stream_handler chan err data = [Effect.get_chan chan, Effect.send 404 "not found"] ∧
      responseStatus (stream_handler chan err data) = some 404 ∧
      attachments (stream_handler chan err data) = []) ∧
    (err ≠ some "NotFound" → err.truthy = true →
      stream_handler chan err data =
        [Effect.get_chan chan, Effect.send 503 "Failed to start stream"] ∧
      responseStatus (stream_handler chan err data) = some 503 ∧
      attachments (stream_handler chan err data) = []) ∧
    (err.truthy = false →
      stream_handler chan err data =
        [Effect.get_chan chan, Effect.set data.headers,
         Effect.addClient chan Handle.res "http-sink"] ∧
      attachments (stream_handler chan err data) = [(chan, Handle.res, "http-sink")]) := by
  refine ⟨?_, ?_, ?_⟩
  · intro h
    subst h
    simp [stream_handler, responseStatus, attachments]
  · intro h1 h2
    simp [stream_handler, responseStatus, attachments, h1, h2]
  · intro h
    have h1 : err ≠ some "NotFound" := by
      intro he; subst he; revert h; decide
    simp [stream_handler, attachments, h1, h]

/-- C2: a transcode request whose profile passes validation and whose derived
channel already exists (`try_chan` on `"trans-" + profile + "-" + chan` reports
no error) sets that channel's headers and attaches the caller to the same
derived key as `http-sink`, and does nothing else: no `get_chan`, no internal
client, no `addChan`, no encoder. -/
theorem transcode_reuses_existing (cfg : TranscodeConfig) (reqProfile : Option String)
    (chan : String) (o : TranscodeOutcome)
    (hvalid : invalidProfile cfg (effectiveProfile cfg reqProfile) = false)
    (hexists : o.tryErr.truthy = false) :
    transcode_handler (some cfg) reqProfile chan o =
      [Effect.log ("TRANSCODE: " ++ chan ++ " " ++ (effectiveProfile cfg reqProfile).toStr),
       Effect.try_chan (transKey (effectiveProfile cfg reqProfile) chan),
       Effect.set o.tryData.headers,
       Effect.addClient (transKey (effectiveProfile cfg reqProfile) chan) Handle.res
         "http-sink"] ∧
    attachments (transcode_handler (some cfg) reqProfile chan o) =
      [(transKey (effectiveProfile cfg reqProfile) chan, Handle.res, "http-sink")] ∧
    (transcode_handler (some cfg) reqProfile chan o).all (fun e => !newWork e) = true := by
  simp [transcode_handler, hvalid, hexists, attachments, newWork]

theorem transcode_reuses_existing_witness :
    transcode_handler
        (some [("default", JSVal.str "mp4"), ("mp4", JSVal.fn "function (ffmpeg) \x7b return ffmpeg; \x7d")])
        none "bbc1"
        { tryErr := none, tryData := ⟨[("Content-Type", "video/mp2t")]⟩,
          getErr := none, getData := ⟨[]⟩, ffmpegError := none } =
      [Effect.log "TRANSCODE: bbc1 mp4",
       Effect.try_chan "trans-mp4-bbc1",
       Effect.set [("Content-Type", "video/mp2t")],
       Effect.addClient "trans-mp4-bbc1" Handle.res "http-sink"] :=
  (transcode_reuses_existing
    [("default", JSVal.str "mp4"), ("mp4", JSVal.fn "function (ffmpeg) \x7b return ffmpeg; \x7d")]
    none "bbc1"
    { tryErr := none, tryData := ⟨[("Content-Type", "video/mp2t")]⟩,
      getErr := none, getData := ⟨[]⟩, ffmpegError := none }
    (by decide) (by decide)).1

theorem transcode_rejected (transcode : Option TranscodeConfig) (reqProfile : Option String)
    (chan : String) (o : TranscodeOutcome) :
    (transcode = none →
      transcode_handler transcode reqProfile chan o =
        [Effect.send 404 "Transcoding not enabled"]) ∧
    (∀ cfg, transcode = some cfg →
      ((effectiveProfile cfg reqProfile).looseEqStr "disable" = true ∨
        (cfg.get (effectiveProfile cfg reqProfile)).truthy = false) →
      transcode_handler transcode reqProfile chan o = [Effect.send 404 "Invalid profile"]) := by
  constructor
  · rintro rfl
    rfl
  · rintro cfg rfl h
    have hinv : invalidProfile cfg (effectiveProfile cfg reqProfile) = true := by
      rcases h with h | h <;> simp [invalidProfile, h]
    simp [transcode_handler, hinv]

/-- A name inherited from `Object.prototype` passes the check of the transcode
route as well: at `GET /transcode.toString/bbc1` the handler registers the
internal client and the derived channel, and fails when it starts the
encoder. -/
theorem transcode_inherited_key_accepted :
    invalidProfile
        [("default", JSVal.str "mp4"), ("mp4", JSVal.fn "function (ffmpeg) \x7b return ffmpeg; \x7d")]
        (JSVal.str "toString") = false ∧
    transcode_handler
        (some [("default", JSVal.str "mp4"), ("mp4", JSVal.fn "function (ffmpeg) \x7b return ffmpeg; \x7d")])
        (some "toString") "bbc1"
        { tryErr := some "NotStarted", tryData := ⟨[]⟩,
          getErr := none, getData := ⟨[]⟩, ffmpegError := none } =
      [Effect.log "TRANSCODE: bbc1 toString",
       Effect.try_chan "trans-toString-bbc1",
       Effect.get_chan "bbc1",
       Effect.writeHead 200 [],
       Effect.addClient "bbc1" Handle.fakeClient "transcode-toString",
       Effect.addChan "trans-toString-bbc1" Handle.transcodedChan []
         [HookOp.endStream Handle.fakeClient, HookOp.killClient "bbc1" Handle.fakeClient],
       Effect.addClient "trans-toString-bbc1" Handle.res "http-sink",
       Effect.typeError (JSVal.other "function toString() \x7b [native code] \x7d")] := by
  decide

/-- C3, at the request `GET /transcode.default/bbc1` under a configuration
whose `default` entry names the profile `mp4`: the check
`!config.transcode[profile]` finds the truthy string `"mp4"` under the key
`default` and lets the request through, although that entry is no pipeline
builder.  The handler answers 200, registers the internal client, creates and
attaches to `trans-default-bbc1`, and then fails calling the string as a
function. -/
theorem transcode_default_key_accepted :
    (TranscodeConfig.get
        [("default", JSVal.str "mp4"), ("mp4", JSVal.fn "function (ffmpeg) \x7b return ffmpeg; \x7d")]
        (effectiveProfile
          [("default", JSVal.str "mp4"), ("mp4", JSVal.fn "function (ffmpeg) \x7b return ffmpeg; \x7d")]
          (some "default")) = JSVal.str "mp4") ∧
    transcode_handler
        (some [("default", JSVal.str "mp4"), ("mp4", JSVal.fn "function (ffmpeg) \x7b return ffmpeg; \x7d")])
        (some "default") "bbc1"
        { tryErr := some "NotStarted", tryData := ⟨[]⟩,
          getErr := none, getData := ⟨[("Content-Type", "video/mp2t")]⟩,
          ffmpegError := none } =
      [Effect.log "TRANSCODE: bbc1 default",
       Effect.try_chan "trans-default-bbc1",
       Effect.get_chan "bbc1",
       Effect.writeHead 200 [("Content-Type", "video/mp2t")],
       Effect.addClient "bbc1" Handle.fakeClient "transcode-default",
       Effect.addChan "trans-default-bbc1" Handle.transcodedChan
         [("Content-Type", "video/mp2t")]
         [HookOp.endStream Handle.fakeClient, HookOp.killClient "bbc1" Handle.fakeClient],
       Effect.addClient "trans-default-bbc1" Handle.res "http-sink",
       Effect.typeError (JSVal.str "mp4")] := by
  decide

/-- C4, as stated, fails when the encoder reports an error after it was
started: the response already carries status 200 and the source's headers, it
is ended and the derived channel is killed, and no 503 is sent. -/
theorem transcode_pipeline_failure_no_503 :
    transcode_handler
        (some [("default", JSVal.str "mp4"), ("mp4", JSVal.fn "function (ffmpeg) \x7b return ffmpeg; \x7d")])
        none "bbc1"
        { tryErr := some "NotStarted", tryData := ⟨[]⟩,
          getErr := none, getData := ⟨[("Content-Type", "video/mp2t")]⟩,
          ffmpegError := some "ffmpeg exited with code 1" } =
      [Effect.log "TRANSCODE: bbc1 mp4",
       Effect.try_chan "trans-mp4-bbc1",
       Effect.get_chan "bbc1",
       Effect.writeHead 200 [("Content-Type", "video/mp2t")],
       Effect.addClient "bbc1" Handle.fakeClient "transcode-mp4",
       Effect.addChan "trans-mp4-bbc1" Handle.transcodedChan
         [("Content-Type", "video/mp2t")]
         [HookOp.endStream Handle.fakeClient, HookOp.killClient "bbc1" Handle.fakeClient],
       Effect.addClient "trans-mp4-bbc1" Handle.res "http-sink",
       Effect.encode "function (ffmpeg) \x7b return ffmpeg; \x7d" Handle.fakeClient
         "mpegts" "mpegts" Handle.transcodedChan,
       Effect.log "FFMPEG_ERRROR: ffmpeg exited with code 1",
       Effect.resEnd,
       Effect.killChan "trans-mp4-bbc1"] ∧
    responseStatus
        (transcode_handler
          (some [("default", JSVal.str "mp4"), ("mp4", JSVal.fn "function (ffmpeg) \x7b return ffmpeg; \x7d")])
          none "bbc1"
          { tryErr := some "NotStarted", tryData := ⟨[]⟩,
            getErr := none, getData := ⟨[("Content-Type", "video/mp2t")]⟩,
            ffmpegError := some "ffmpeg exited with code 1" }) ≠ some 503 := by
  decide

/-- C4, amended: for a transcode request that passes validation and finds no
derived channel, a failing `get_chan` is answered with status 503 and the body
`Failed to start stream (<err>)`, and nothing is registered; when the encoder
built by the profile's function reports an error after being started, the
response, already begun with status 200 and the source's headers, is ended and
`killChan` is called on `"trans-" + profile + "-" + chan`. -/
theorem transcode_failures (cfg : TranscodeConfig) (reqProfile : Option String)
    (chan : String) (o : TranscodeOutcome)
    (hvalid : invalidProfile cfg (effectiveProfile cfg reqProfile) = false)
    (hnew : o.tryErr.truthy = true) :
    (∀ err : String, o.getErr = some err → err ≠ "" →
      transcode_handler (some cfg) reqProfile chan o =
        [Effect.log ("TRANSCODE: " ++ chan ++ " " ++ (effectiveProfile cfg reqProfile).toStr),
         Effect.try_chan (transKey (effectiveProfile cfg reqProfile) chan),
         Effect.get_chan chan,
         Effect.send 503 ("Failed to start stream (" ++ err ++ ")")] ∧
      responseStatus (transcode_handler (some cfg) reqProfile chan o) = some 503 ∧
      attachments (transcode_handler (some cfg) reqProfile chan o) = []) ∧
    (∀ builder message : String, o.getErr.truthy = false →
      cfg.get (effectiveProfile cfg reqProfile) = JSVal.fn builder →
      o.ffmpegError = some message →
      transcode_handler (some cfg) reqProfile chan o =
        [Effect.log ("TRANSCODE: " ++ chan ++ " " ++ (effectiveProfile cfg reqProfile).toStr),
         Effect.try_chan (transKey (effectiveProfile cfg reqProfile) chan),
         Effect.get_chan chan,
         Effect.writeHead 200 o.getData.headers,
         Effect.addClient chan Handle.fakeClient
           ("transcode-" ++ (effectiveProfile cfg reqProfile).toStr),
         Effect.addChan (transKey (effectiveProfile cfg reqProfile) chan)
           Handle.transcodedChan o.getData.headers
           [HookOp.endStream Handle.fakeClient, HookOp.killClient chan Handle.fakeClient],
         Effect.addClient (transKey (effectiveProfile cfg reqProfile) chan) Handle.res
           "http-sink",
         Effect.encode builder Handle.fakeClient "mpegts" "mpegts" Handle.transcodedChan,
         Effect.log ("FFMPEG_ERRROR: " ++ message),
         Effect.resEnd,
         Effect.killChan (transKey (effectiveProfile cfg reqProfile) chan)] ∧
      responseStatus (transcode_handler (some cfg) reqProfile chan o) = some 200) := by
  constructor
  · intro err herr hne
    simp [transcode_handler, hvalid, hnew, herr, hne, responseStatus, attachments]
  · intro builder message hget hb hm
    cases hg : o.getErr with
    | none =>
      simp [transcode_handler, hvalid, hnew, hg, transcode_start, hb, hm, responseStatus]
    | some e =>
      have he : e = "" := by
        rw [hg] at hget
        simpa [Err.truthy] using hget
      subst he
      simp [transcode_handler, hvalid, hnew, hg, transcode_start, hb, hm, responseStatus]

theorem transcode_failures_witness :
    responseStatus
        (transcode_handler
          (some [("default", JSVal.str "mp4"), ("mp4", JSVal.fn "function (ffmpeg) \x7b return ffmpeg; \x7d")])
          none "bbc1"
          { tryErr := some "NotStarted", tryData := ⟨[]⟩,
            getErr := some "Unavailable", getData := ⟨[]⟩, ffmpegError := none }) =
      some 503 :=
  ((transcode_failures
    [("default", JSVal.str "mp4"), ("mp4", JSVal.fn "function (ffmpeg) \x7b return ffmpeg; \x7d")]
    none "bbc1"
    { tryErr := some "NotStarted", tryData := ⟨[]⟩,
      getErr := some "Unavailable", getData := ⟨[]⟩, ffmpegError := none }
    (by decide) (by decide)).1 "Unavailable" rfl (by decide)).2.1

/-- C9, at the request `DELETE /admin/chan/nosuch` on a registry that has no
such channel: after `res.send(404)` the handler does not return; it still
calls `killChan("nosuch")` and then `res.send(200)`. -/
theorem delete_unknown_chan_still_kills :
    delete_chan_handler (fun _ => false) "nosuch" =
      [Effect.sendStatus 404, Effect.killChan "nosuch", Effect.sendStatus 200] := by
  decide

end IptvProxy
